import Mathlib

set_option maxHeartbeats 1000000
set_option linter.unusedVariables false

/-! Shallow embedding of the Sigma-rule keyword-search pipeline
(alpha_keyword_search_with_output_context.py) and of the hunt-plan
JSON-RPC envelope builder (v1.py), with theorems checking the
natural-language specification against the code. -/

/-- ASCII whitespace, modelling the Python regex class backslash-s and the
whitespace recognised by the default str.split and str.strip. -/
def isSpaceChar (c : Char) : Bool :=
  c = ' ' || c = '\t' || c = '\n' || c = '\r' || c = '\x0b' || c = '\x0c'

/-- Word characters of the Python regex class backslash-w (ASCII model:
letters, digits and the underscore). -/
def isWordChar (c : Char) : Bool :=
  c.isAlphanum || c = '_'

/-- Model of the Python str.lower (character-wise case folding). -/
def pyLower (s : String) : String :=
  String.mk (s.toList.map Char.toLower)

/-- Model of the Python str.strip with no arguments: drop leading and
trailing whitespace. -/
def pyStrip (s : String) : String :=
  String.mk (((s.toList.dropWhile isSpaceChar).reverse.dropWhile isSpaceChar).reverse)

/-- Helper of pySplit: accumulate the current word (reversed) while
scanning the character list. -/
def pySplitAux (acc : List Char) : List Char → List String
  | [] => if acc.isEmpty then [] else [String.mk acc.reverse]
  | c :: rest =>
    if isSpaceChar c then
      if acc.isEmpty then pySplitAux [] rest
      else String.mk acc.reverse :: pySplitAux [] rest
    else pySplitAux (c :: acc) rest

/-- Model of the Python str.split with no arguments: split on runs of
whitespace, producing no empty pieces. -/
def pySplit (s : String) : List String :=
  pySplitAux [] s.toList

/-- Model of the Python sep.join(pieces). -/
def pyJoin (sep : String) : List String → String
  | [] => ""
  | [a] => a
  | a :: b :: rest => a ++ sep ++ pyJoin sep (b :: rest)

/-- Contiguous-sublist test on character lists. -/
def isSubList (needle : List Char) : List Char → Bool
  | [] => needle.isEmpty
  | c :: rest => needle.isPrefixOf (c :: rest) || isSubList needle rest

/-- Model of the Python membership test: needle in hay, a substring test. -/
def containsSubstr (hay needle : String) : Bool :=
  isSubList needle.toList hay.toList

/-- Model of the Python str.startswith. -/
def pyStartsWith (s pre : String) : Bool :=
  pre.toList.isPrefixOf s.toList

/-- Helper of pySplitOnChar: accumulate the current piece (reversed). -/
def splitOnCharAux (sep : Char) (acc : List Char) : List Char → List String
  | [] => [String.mk acc.reverse]
  | c :: rest =>
    if c = sep then String.mk acc.reverse :: splitOnCharAux sep [] rest
    else splitOnCharAux sep (c :: acc) rest

/-- Model of the Python str.split(sep) for a one-character separator:
split at every occurrence, keeping empty pieces. -/
def pySplitOnChar (sep : Char) (s : String) : List String :=
  splitOnCharAux sep [] s.toList

/- JSON-like values, the shape of Qdrant payload fields such as the
detection structure. Numbers are modelled as integers (the Sigma payloads
this program serializes carry integer and string scalars). -/
mutual
inductive JVal : Type where
  | null : JVal
  | bool : Bool → JVal
  | num : Int → JVal
  | str : String → JVal
  | arr : JList → JVal
  | obj : JObj → JVal
deriving DecidableEq
inductive JList : Type where
  | nil : JList
  | cons : JVal → JList → JList
deriving DecidableEq
inductive JObj : Type where
  | nil : JObj
  | cons : String → JVal → JObj → JObj
deriving DecidableEq
end

/-- Escape of one character inside a JSON string literal, as json.dumps
emits it for the common ASCII escapes. -/
def jsonEscapeChar (c : Char) : String :=
  if c = '"' then "\\\""
  else if c = '\\' then "\\\\"
  else if c = '\n' then "\\n"
  else if c = '\t' then "\\t"
  else if c = '\r' then "\\r"
  else String.mk [c]

/-- A JSON string literal: quotes around the escaped characters. -/
def jsonQuote (s : String) : String :=
  "\"" ++ String.join (s.toList.map jsonEscapeChar) ++ "\""

/- Compact json.dumps (default separators: comma-space and colon-space). -/
mutual
def dumpVal : JVal → String
  | .null => "null"
  | .bool true => "true"
  | .bool false => "false"
  | .num n => toString n
  | .str s => jsonQuote s
  | .arr xs => "[" ++ dumpList xs ++ "]"
  | .obj xs => "\x7b" ++ dumpObj xs ++ "\x7d"
def dumpList : JList → String
  | .nil => ""
  | .cons v .nil => dumpVal v
  | .cons v (.cons w rest) => dumpVal v ++ ", " ++ dumpList (.cons w rest)
def dumpObj : JObj → String
  | .nil => ""
  | .cons k v .nil => jsonQuote k ++ ": " ++ dumpVal v
  | .cons k v (.cons k2 w rest) =>
    jsonQuote k ++ ": " ++ dumpVal v ++ ", " ++ dumpObj (.cons k2 w rest)
end

/-- Spaces used by the indented json.dumps. -/
def padSpaces (k : Nat) : String :=
  String.mk (List.replicate k ' ')

/- Indented json.dumps(value, indent=n), at nesting level lvl. Empty
containers print on one line exactly as the Python encoder does. -/
mutual
def dumpIndVal (n lvl : Nat) : JVal → String
  | .null => "null"
  | .bool true => "true"
  | .bool false => "false"
  | .num m => toString m
  | .str s => jsonQuote s
  | .arr .nil => "[]"
  | .arr (.cons v rest) =>
    "[\n" ++ dumpIndList n (lvl + 1) (.cons v rest) ++ "\n" ++ padSpaces (n * lvl) ++ "]"
  | .obj .nil => "\x7b\x7d"
  | .obj (.cons k v rest) =>
    "\x7b\n" ++ dumpIndObj n (lvl + 1) (.cons k v rest) ++ "\n" ++ padSpaces (n * lvl) ++ "\x7d"
def dumpIndList (n lvl : Nat) : JList → String
  | .nil => ""
  | .cons v .nil => padSpaces (n * lvl) ++ dumpIndVal n lvl v
  | .cons v (.cons w rest) =>
    padSpaces (n * lvl) ++ dumpIndVal n lvl v ++ ",\n" ++ dumpIndList n lvl (.cons w rest)
def dumpIndObj (n lvl : Nat) : JObj → String
  | .nil => ""
  | .cons k v .nil => padSpaces (n * lvl) ++ jsonQuote k ++ ": " ++ dumpIndVal n lvl v
  | .cons k v (.cons k2 w rest) =>
    padSpaces (n * lvl) ++ jsonQuote k ++ ": " ++ dumpIndVal n lvl v ++ ",\n"
      ++ dumpIndObj n lvl (.cons k2 w rest)
end

/-- Python truthiness of a JSON value: None, False, zero, the empty string
and empty containers are falsy. -/
def JVal.truthy : JVal → Bool
  | .null => false
  | .bool b => b
  | .num n => n != 0
  | .str s => s != ""
  | .arr .nil => false
  | .arr (.cons _ _) => true
  | .obj .nil => false
  | .obj (.cons _ _ _) => true

/-- A rule payload as stored by the ingester (prepare_payload in
sigma_rules_convert_384_v1.py): fourteen optional fields. A missing or
null field is modelled as none. The logsource is a string-to-string
mapping and the detection an arbitrary JSON structure, as the spec data
model states. -/
structure Rule where
  title : Option String := none
  id : Option String := none
  status : Option String := none
  description : Option String := none
  references : Option (List String) := none
  author : Option String := none
  date : Option String := none
  modified : Option String := none
  tags : Option (List String) := none
  logsource : Option (List (String × String)) := none
  detection : Option JVal := none
  falsepositives : Option (List String) := none
  level : Option String := none
  filename : Option String := none
deriving DecidableEq

/-- Contribution of one simple scalar field to the searchable parts:
included when truthy (present and non-empty), as payload.get(field) tests. -/
def scalarPart (v : Option String) : List String :=
  match v with
  | some s => if s = "" then [] else [s]
  | none => []

/-- Contribution of a string-list field (references, falsepositives):
all items when the field is truthy, nothing otherwise. -/
def listParts (v : Option (List String)) : List String :=
  match v with
  | some l => l
  | none => []

/-- The extra parts contributed by tags: every tag, then for each tag
beginning with the classification prefix its dot-separated segments. -/
def tagParts (tags : List String) : List String :=
  tags ++ tags.foldr
    (fun tag acc =>
      (if pyStartsWith tag "attack." then pySplitOnChar '.' tag else []) ++ acc) []

/-- The searchable parts of a rule, in the order search_qdrant builds them:
scalar fields, references, tags (with attack segments), logsource values,
the compact JSON dump of the detection, false positives. -/
def searchable_parts (r : Rule) : List String :=
  scalarPart r.title ++ scalarPart r.id ++ scalarPart r.status ++
    scalarPart r.description ++ scalarPart r.author ++ scalarPart r.date ++
    scalarPart r.modified ++ scalarPart r.level ++ scalarPart r.filename ++
    listParts r.references ++
    (match r.tags with
     | some ts => tagParts ts
     | none => []) ++
    (match r.logsource with
     | some m => m.map (fun kv => kv.2)
     | none => []) ++
    (match r.detection with
     | some d => if d.truthy then [dumpVal d] else []
     | none => []) ++
    listParts r.falsepositives

/-- The lowercase space-joined searchable text of a rule. -/
def searchable_text (r : Rule) : String :=
  pyLower (pyJoin " " (searchable_parts r))

/-- One rule matches when any supplied term, lowercased, is a substring of
the searchable text. -/
def rule_matches (terms : List String) (r : Rule) : Bool :=
  terms.any (fun t => containsSubstr (searchable_text r) (pyLower t))

/-- The scan of search_qdrant over the fetched page: collect matching
rules, deduplicated against the set of already matched rules. The Python
set holds the pair (title, json.dumps(payload)); json.dumps is an
injective serialization of the payload and the title is one of its
fields, so equality of that pair coincides with equality of the payload,
and the seen set is modelled as a list of rules. -/
def collectMatches (terms : List String) : List Rule → List Rule → List Rule
  | [], _ => []
  | r :: rest, seen =>
    if rule_matches terms r then
      if r ∈ seen then collectMatches terms rest seen
      else r :: collectMatches terms rest (r :: seen)
    else collectMatches terms rest seen

/-- The matching rules of a fetched page, deduplicated. -/
def search_matches (terms : List String) (page : List Rule) : List Rule :=
  collectMatches terms page []

/-- Outcome of one run of search_qdrant: the returned list, the new value
of the process-wide last_search_results cache, and how many scroll
requests were issued to the store. -/
structure SearchRun where
  result : List Rule
  newCache : List Rule
  scrollCalls : Nat
deriving DecidableEq

/-- Model of Pipeline.search_qdrant. The store argument is the outcome of
the scroll call: some page on success, none when scroll raises. The
scroll request is issued first in both cases; on failure the exception
handler returns an empty list without touching the cache, on success the
matches overwrite the cache and are returned. -/
def search_qdrant (terms : List String) (store : Option (List Rule))
    (cache : List Rule) : SearchRun :=
  match store with
  | none => ⟨[], cache, 1⟩
  | some page =>
    let m := search_matches terms page
    ⟨m, m, 1⟩

/-- Lines of the mapping rendering used by format_rule: the indented
json.dumps split on newlines, the outermost brace lines dropped, each
remaining line stripped and re-indented by four spaces. -/
def dictLines (v : JVal) : List String :=
  (((pySplitOnChar '\n' (dumpIndVal 4 0 v)).drop 1).dropLast).map
    (fun ln => "    " ++ pyStrip ln)

/-- Scalar field rendering of format_rule: the value, or the literal
none when the value is absent. -/
def scalarLine (name : String) (v : Option String) : String :=
  match v with
  | some s => name ++ ": " ++ s
  | none => name ++ ": none"

/-- Rendering of a string-list field in format_rule. A present list gets
one four-space bullet per item, a present empty list the placeholder
bullet; an absent value is not a Python list, so it falls through to the
scalar branch and renders as the literal none. -/
def listFieldLines (name : String) (v : Option (List String)) : List String :=
  match v with
  | some [] => [name ++ ":", "    - none"]
  | some (item :: rest) => (name ++ ":") :: (item :: rest).map (fun it => "    - " ++ it)
  | none => [name ++ ": none"]

/-- Rendering of the description field in format_rule: a literal block
with each source line stripped and re-indented, or the placeholder when
the value is falsy. -/
def descriptionLines (v : Option String) : List String :=
  match v with
  | some d =>
    if d = "" then ["description: |", "    No description provided"]
    else "description: |" :: (pySplitOnChar '\n' d).map (fun ln => "    " ++ pyStrip ln)
  | none => ["description: |", "    No description provided"]

/-- The logsource mapping as a JSON object. -/
def strMapToJObj : List (String × String) → JObj
  | [] => .nil
  | (k, v) :: rest => .cons k (.str v) (strMapToJObj rest)

/-- Rendering of the logsource field in format_rule: the field name, then
the pretty-printed mapping, or the empty-object placeholder when the
value is not a mapping. -/
def logsourceLines (v : Option (List (String × String))) : List String :=
  match v with
  | some m => "logsource:" :: dictLines (JVal.obj (strMapToJObj m))
  | none => ["logsource:", "    \x7b\x7d"]

/-- Rendering of the detection field in format_rule: pretty-printed when
the value is a mapping, the empty-object placeholder otherwise. -/
def detectionLines (v : Option JVal) : List String :=
  match v with
  | some (JVal.obj o) => "detection:" :: dictLines (JVal.obj o)
  | some _ => ["detection:", "    \x7b\x7d"]
  | none => ["detection:", "    \x7b\x7d"]

/-- The output lines of Pipeline.format_rule in the hardcoded field
order, with the blank separator line after the description, logsource and
detection blocks. -/
def format_rule_lines (r : Rule) : List String :=
  [scalarLine "title" r.title, scalarLine "id" r.id, scalarLine "status" r.status] ++
    descriptionLines r.description ++ [""] ++
    listFieldLines "references" r.references ++
    [scalarLine "author" r.author, scalarLine "date" r.date,
      scalarLine "modified" r.modified] ++
    listFieldLines "tags" r.tags ++
    logsourceLines r.logsource ++ [""] ++
    detectionLines r.detection ++ [""] ++
    listFieldLines "falsepositives" r.falsepositives ++
    [scalarLine "level" r.level, scalarLine "filename" r.filename]

/-- Model of Pipeline.format_rule: the lines joined by newlines. -/
def format_rule (r : Rule) : String :=
  pyJoin "\n" (format_rule_lines r)

/-- The context block of one rule (1-based index) built by
get_context_from_rules: index header, title with the Untitled default,
the description when truthy, the detection pretty-printed with indent 2
when truthy, then the three-dash separator. -/
def ruleContextBlock (idx : Nat) (r : Rule) : List String :=
  ("Rule " ++ toString idx ++ ":") ::
    ("Title: " ++ r.title.getD "Untitled") ::
    ((match r.description with
      | some d => if d = "" then [] else ["Description: " ++ d]
      | none => []) ++
     (match r.detection with
      | some det => if det.truthy then ["Detection:", dumpIndVal 2 0 det] else []
      | none => []) ++
     ["---"])

/-- The enumerated context lines of a rule list, counting from idx. -/
def contextLines : Nat → List Rule → List String
  | _, [] => []
  | idx, r :: rest => ruleContextBlock idx r ++ contextLines (idx + 1) rest

/-- Model of Pipeline.get_context_from_rules. -/
def get_context_from_rules (rules : List Rule) : String :=
  match rules with
  | [] => ""
  | r :: rest => pyJoin "\n" (contextLines 1 (r :: rest))

/-- Model of Pipeline.create_llm_prompt: wrap a non-empty context in the
instructional template with the query appended, or return the query
unchanged when the context is empty. -/
def create_llm_prompt (q : String) (rules : List Rule) : String :=
  let context := get_context_from_rules rules
  if context = "" then q
  else
    "Here are some relevant Sigma detection rules for context:\n\n" ++ context ++
      "\n\nBased on these rules, please answer this question:\n" ++ q ++
      "\n\nPlease be specific and refer to the rules when applicable."

/-- The normalized word list that both extract_search_terms and
looks_like_search compute: lowercase the query, delete characters that
are neither word nor whitespace characters, strip, split on whitespace. -/
def normalizedWords (q : String) : List String :=
  pySplit (pyStrip (String.mk
    ((pyLower q).toList.filter (fun c => isWordChar c || isSpaceChar c))))

/-- Model of Pipeline.extract_search_terms: the first word when the
normalized query is exactly one word, the empty list otherwise. -/
def extract_search_terms (q : String) : List String :=
  let words := normalizedWords q
  if words.length = 1 then words.take 1 else []

/-- Model of Pipeline.looks_like_search: the normalized query is exactly
one word. -/
def looks_like_search (q : String) : Bool :=
  (normalizedWords q).length == 1

/-- Outcome of one Pipeline.pipe invocation as far as the cache and the
store are concerned: the new cache value, the number of scroll requests,
and the result set the display or generation step consumes (none when
the empty-query guard returns before any set is chosen). -/
structure PipeRun where
  newCache : List Rule
  scrollCalls : Nat
  used : Option (List Rule)
deriving DecidableEq

/-- Model of the query handling of Pipeline.pipe: the empty-query guard,
term extraction, and the choice between calling search_qdrant and
reusing the cached last results. The later display and generation steps
only read the chosen result set; they touch neither the cache nor the
store. -/
def pipe (query : String) (cache : List Rule) (store : Option (List Rule)) : PipeRun :=
  if query = "" then ⟨cache, 0, none⟩
  else
    let terms := extract_search_terms query
    if terms.isEmpty then ⟨cache, 0, some cache⟩
    else
      let s := search_qdrant terms store cache
      ⟨s.newCache, s.scrollCalls, some s.result⟩

/-- The twelve business fields of process_hunt_results in v1.py. The
timeframe dictionary is a string-to-string mapping. -/
structure HuntInput where
  apt_set : List String
  mitre_techniques : List String
  iocs : List String
  region : String
  hunt_type : String
  objectives : List String
  timeframe : List (String × String)
  critical_asset : List String
  log_sources : List String
  compliance : List String
  industry : String
  environment : String
deriving DecidableEq

/-- The validation test of process_hunt_results: not all of the twelve
fields are truthy, where an empty list, an empty string and an empty
mapping are falsy. -/
def huntFalsy (i : HuntInput) : Bool :=
  i.apt_set.isEmpty || i.mitre_techniques.isEmpty || i.iocs.isEmpty ||
    i.region == "" || i.hunt_type == "" || i.objectives.isEmpty ||
    i.timeframe.isEmpty || i.critical_asset.isEmpty || i.log_sources.isEmpty ||
    i.compliance.isEmpty || i.industry == "" || i.environment == ""

/-- A UTC instant as datetime.utcnow() yields it. -/
structure UtcTime where
  year : Nat
  month : Nat
  day : Nat
  hour : Nat
  minute : Nat
  second : Nat
  microsecond : Nat
deriving DecidableEq

/-- Zero-padding of a number to a fixed width. -/
def padZeros (width : Nat) (n : Nat) : String :=
  String.mk (List.replicate (width - (toString n).length) '0') ++ toString n

/-- Model of datetime.isoformat(): date, the letter T, time, and the
microseconds only when they are non-zero. -/
def isoformat (t : UtcTime) : String :=
  padZeros 4 t.year ++ "-" ++ padZeros 2 t.month ++ "-" ++ padZeros 2 t.day ++ "T" ++
    padZeros 2 t.hour ++ ":" ++ padZeros 2 t.minute ++ ":" ++ padZeros 2 t.second ++
    (if t.microsecond = 0 then "" else "." ++ padZeros 6 t.microsecond)

/-- The params dictionary of the hunt-plan envelope: the twelve input
fields plus the generated timestamp. -/
structure HuntParams extends HuntInput where
  timestamp : String
deriving DecidableEq

/-- The JSON-RPC 2.0 envelope built by process_hunt_results. -/
structure JsonRpcEnvelope where
  jsonrpc : String
  method : String
  params : HuntParams
  id : Nat
deriving DecidableEq

/-- Model of process_hunt_results in v1.py. The current UTC time is an
input (the Python code reads it from datetime.utcnow()); raising a
ValueError is modelled as returning an error value. -/
def process_hunt_results (inp : HuntInput) (now : UtcTime) :
    Except String JsonRpcEnvelope :=
  if huntFalsy inp then .error "All input parameters are required"
  else
    .ok
      { jsonrpc := "2.0"
        method := "process_hunt_plan"
        params := { toHuntInput := inp, timestamp := isoformat now }
        id := 1 }

theorem collectMatches_nil_terms (page : List Rule) :
    ∀ seen, collectMatches [] page seen = [] := by
  induction page with
  | nil => intro seen; rfl
  | cons r rest ih =>
    intro seen
    simp [collectMatches, rule_matches, ih]

theorem mem_collectMatches (terms : List String) (r : Rule) (page : List Rule) :
    ∀ seen, r ∈ collectMatches terms page seen ↔
      (r ∈ page ∧ rule_matches terms r = true ∧ r ∉ seen) := by
  induction page with
  | nil => intro seen; simp [collectMatches]
  | cons p rest ih =>
    intro seen
    by_cases hm : rule_matches terms p
    · by_cases hp : p ∈ seen
      · rw [collectMatches, if_pos hm, if_pos hp, ih]
        constructor
        · rintro ⟨h1, h2, h3⟩
          exact ⟨List.mem_cons_of_mem p h1, h2, h3⟩
        · rintro ⟨h1, h2, h3⟩
          rcases List.mem_cons.mp h1 with h1 | h1
          · exact absurd (h1 ▸ hp) h3
          · exact ⟨h1, h2, h3⟩
      · rw [collectMatches, if_pos hm, if_neg hp]
        constructor
        · intro h
          rcases List.mem_cons.mp h with h | h
          · subst h; exact ⟨List.mem_cons_self r rest, hm, hp⟩
          · obtain ⟨h1, h2, h3⟩ := (ih (p :: seen)).mp h
            exact ⟨List.mem_cons_of_mem p h1, h2,
              fun hs => h3 (List.mem_cons_of_mem p hs)⟩
        · rintro ⟨h1, h2, h3⟩
          by_cases hrp : r = p
          · exact hrp ▸ List.mem_cons_self p _
          · rcases List.mem_cons.mp h1 with h1 | h1
            · exact absurd h1 hrp
            · exact List.mem_cons_of_mem p ((ih (p :: seen)).mpr
                ⟨h1, h2, fun hs => (List.mem_cons.mp hs).elim hrp h3⟩)
    · rw [collectMatches, if_neg hm, ih]
      constructor
      · rintro ⟨h1, h2, h3⟩
        exact ⟨List.mem_cons_of_mem p h1, h2, h3⟩
      · rintro ⟨h1, h2, h3⟩
        rcases List.mem_cons.mp h1 with h1 | h1
        · exact absurd (h1 ▸ h2) (by simpa using hm)
        · exact ⟨h1, h2, h3⟩

theorem nodup_collectMatches (terms : List String) (page : List Rule) :
    ∀ seen, (collectMatches terms page seen).Nodup ∧
      ∀ r ∈ collectMatches terms page seen, r ∉ seen := by
  induction page with
  | nil => intro seen; simp [collectMatches]
  | cons p rest ih =>
    intro seen
    by_cases hm : rule_matches terms p
    · by_cases hp : p ∈ seen
      · rw [collectMatches, if_pos hm, if_pos hp]
        exact ih seen
      · rw [collectMatches, if_pos hm, if_neg hp]
        obtain ⟨hnd, hni⟩ := ih (p :: seen)
        refine ⟨List.nodup_cons.mpr ⟨fun hmem => hni p hmem (List.mem_cons_self p seen), hnd⟩, ?_⟩
        intro r hr
        rcases List.mem_cons.mp hr with hr | hr
        · exact hr ▸ hp
        · exact fun hs => hni r hr (List.mem_cons_of_mem p hs)
    · rw [collectMatches, if_neg hm]
      exact ih seen

/-- Claim C1: for every rule payload in the fetched page and every
non-empty sequence of search terms, the matcher returns the rule if and
only if at least one term, case-folded, is a substring of the searchable
text built from the payload fields. -/
theorem search_returns_iff_term_matches (terms : List String) (page : List Rule)
    (cache : List Rule) (r : Rule) (h : terms ≠ []) :
    r ∈ (search_qdrant terms (some page) cache).result ↔
      (r ∈ page ∧ rule_matches terms r = true) := by
  have hmem := mem_collectMatches terms r page []
  simpa [search_qdrant, search_matches] using hmem

/-- Witness for C1: the rule tagged attack.t1190 is returned for the
single search term t1190. -/
theorem search_returns_iff_term_matches_witness :
    { title := some "Exploit Attempt", tags := some ["attack.t1190"] } ∈
      (search_qdrant ["t1190"]
        (some [{ title := some "Exploit Attempt", tags := some ["attack.t1190"] }])
        []).result :=
  (search_returns_iff_term_matches ["t1190"]
    [{ title := some "Exploit Attempt", tags := some ["attack.t1190"] }] []
    { title := some "Exploit Attempt", tags := some ["attack.t1190"] }
    (by decide)).mpr (by constructor <;> decide)

/-- Counterexample to claim C2: calling search_qdrant with an empty term
sequence still issues one scroll request to the store, so it is not true
that the call returns an empty list and performs no network call. -/
theorem search_empty_terms_counterexample :
    ¬((search_qdrant [] (some []) []).result = [] ∧
      (search_qdrant [] (some []) []).scrollCalls = 0) := by
  decide

/-- Claim C2 as amended: for every call of the matcher with an empty
search-term sequence it returns an empty list, but one scroll request is
still issued to the store (the fetch happens before any term is
examined). -/
theorem search_empty_terms_amended (store : Option (List Rule)) (cache : List Rule) :
    (search_qdrant [] store cache).result = [] ∧
      (search_qdrant [] store cache).scrollCalls = 1 := by
  cases store with
  | none => exact ⟨rfl, rfl⟩
  | some page =>
    exact ⟨collectMatches_nil_terms page [], rfl⟩

/-- Claim C8: the result set of the matcher never contains duplicate
rules; each stored rule contributes at most one entry. -/
theorem search_result_nodup (terms : List String) (store : Option (List Rule))
    (cache : List Rule) :
    ((search_qdrant terms store cache).result).Nodup := by
  cases store with
  | none => simp [search_qdrant]
  | some page => exact (nodup_collectMatches terms page []).1

/-- Claim C10: when the scroll operation fails the matcher returns an
empty list and the last-results cache keeps its previous value; on a
successful search the cache is overwritten with exactly the returned
result set. -/
theorem search_failure_preserves_cache (terms : List String) (cache : List Rule)
    (page : List Rule) :
    (search_qdrant terms none cache).result = [] ∧
      (search_qdrant terms none cache).newCache = cache ∧
      (search_qdrant terms (some page) cache).newCache =
        (search_qdrant terms (some page) cache).result :=
  ⟨rfl, rfl, rfl⟩

/-- Claim C7: a query from which the term extractor yields no term makes
the orchestrator skip the matcher entirely: no scroll request reaches the
store, the cached result set is left unchanged, and (unless the
empty-query guard returned first) the cached set is the one consumed
downstream. -/
theorem pipe_no_term_reuses_cache (q : String) (cache : List Rule)
    (store : Option (List Rule)) (h : extract_search_terms q = []) :
    (pipe q cache store).scrollCalls = 0 ∧
      (pipe q cache store).newCache = cache ∧
      (q ≠ "" → (pipe q cache store).used = some cache) := by
  unfold pipe
  by_cases hq : q = ""
  · simp [hq]
  · simp [hq, h]

/-- Witness for C7: a multi-word query with a non-empty cache and a
store that would answer. -/
theorem pipe_no_term_reuses_cache_witness :
    (pipe "how do I detect lateral movement" [{ title := some "T" }]
        (some [])).scrollCalls = 0 ∧
      (pipe "how do I detect lateral movement" [{ title := some "T" }]
          (some [])).newCache = [{ title := some "T" }] ∧
      ("how do I detect lateral movement" ≠ "" →
        (pipe "how do I detect lateral movement" [{ title := some "T" }]
            (some [])).used = some [{ title := some "T" }]) :=
  pipe_no_term_reuses_cache "how do I detect lateral movement"
    [{ title := some "T" }] (some []) (by decide)

/-- Claim C9: the formatter is deterministic; formatting the same rule
twice yields byte-identical output. In this embedding format_rule is a
pure function over the rule record (the source renders the fourteen
fields in a hardcoded order and json.dumps preserves the insertion order
of a dict within a run), so the two renderings are definitionally equal. -/
theorem format_rule_deterministic (r : Rule) :
    format_rule r = format_rule r := rfl

/-- Counterexample to claim C3: for a rule in which only the title is
set, the output contains no placeholder bullet anywhere, so the absent
list-valued fields (references, tags, falsepositives) are not rendered
as a bullet list with the single bullet none. -/
theorem format_only_title_counterexample :
    containsSubstr (format_rule { title := some "Test" }) "- none" = false := by
  decide

/-- Claim C3 as amended: a rule in which only the title is set renders
every one of the 14 fields: the description as a literal block with the
placeholder line, logsource and detection as the empty-object
placeholder, and every other absent field, the list-valued ones
included, as the field name followed by the literal none (an absent
list field is not a Python list, so it takes the scalar branch, not the
bullet placeholder). No field is omitted. -/
theorem format_only_title_amended (t : String) :
    format_rule { title := some t } =
      pyJoin "\n" ["title: " ++ t, "id: none", "status: none", "description: |",
        "    No description provided", "", "references: none", "author: none",
        "date: none", "modified: none", "tags: none", "logsource:", "    \x7b\x7d", "",
        "detection:", "    \x7b\x7d", "", "falsepositives: none", "level: none",
        "filename: none"] := rfl

/-- Claim C4: looks_like_search answers true exactly when
extract_search_terms returns a singleton and false exactly when it
returns the empty list; the two agree on every input because both apply
the same normalization. -/
theorem looks_like_search_agrees (q : String) :
    (looks_like_search q = true ↔ (extract_search_terms q).length = 1) ∧
      (looks_like_search q = false ↔ extract_search_terms q = []) := by
  unfold looks_like_search extract_search_terms
  by_cases h : (normalizedWords q).length = 1
  · obtain ⟨a, ha⟩ := List.length_eq_one.mp h
    rw [ha]
    simp
  · have hb : ((normalizedWords q).length == 1) = false := by
      simpa using h
    rw [hb, if_neg h]
    simp

theorem huntFalsy_iff (i : HuntInput) :
    huntFalsy i = true ↔
      (i.apt_set = [] ∨ i.mitre_techniques = [] ∨ i.iocs = [] ∨ i.region = "" ∨
        i.hunt_type = "" ∨ i.objectives = [] ∨ i.timeframe = [] ∨
        i.critical_asset = [] ∨ i.log_sources = [] ∨ i.compliance = [] ∨
        i.industry = "" ∨ i.environment = "") := by
  simp only [huntFalsy, Bool.or_eq_true, List.isEmpty_iff, beq_iff_eq]
  tauto

/-- Claim C5: the hunt-plan builder fails with the validation error
exactly when one of its twelve business fields is empty, and otherwise
returns the JSON-RPC envelope with jsonrpc 2.0, method
process_hunt_plan, id 1 and params made of exactly the twelve input
fields plus the generated ISO-8601 timestamp, a field the input does not
contain. -/
theorem hunt_results_validation (inp : HuntInput) (now : UtcTime) :
    ((∃ e, process_hunt_results inp now = .error e) ↔
      (inp.apt_set = [] ∨ inp.mitre_techniques = [] ∨ inp.iocs = [] ∨
        inp.region = "" ∨ inp.hunt_type = "" ∨ inp.objectives = [] ∨
        inp.timeframe = [] ∨ inp.critical_asset = [] ∨ inp.log_sources = [] ∨
        inp.compliance = [] ∨ inp.industry = "" ∨ inp.environment = "")) ∧
      (huntFalsy inp = false →
        process_hunt_results inp now =
          .ok { jsonrpc := "2.0", method := "process_hunt_plan",
                params := { toHuntInput := inp, timestamp := isoformat now },
                id := 1 }) := by
  constructor
  · rw [← huntFalsy_iff]
    constructor
    · rintro ⟨e, he⟩
      by_cases h : huntFalsy inp = true
      · exact h
      · simp only [process_hunt_results] at he
        rw [if_neg h] at he
        exact absurd he (by simp)
    · intro h
      refine ⟨"All input parameters are required", ?_⟩
      simp only [process_hunt_results]
      rw [if_pos h]
  · intro h
    simp only [process_hunt_results]
    rw [if_neg (by simp [h])]

/-- Test input of the v1.py main block: all twelve fields populated. -/
def huntTestData : HuntInput :=
  { apt_set := ["APT28", "APT29"]
    mitre_techniques := ["T1190", "T1566", "T1595"]
    iocs := ["1.2.3.4", "malware.exe", "evil.dll"]
    region := "EMEA"
    hunt_type := "targeted"
    objectives := ["detect_lateral_movement", "identify_data_exfil"]
    timeframe := [("start", "2024-01-01"), ("end", "2024-03-19")]
    critical_asset := ["domain_controllers", "file_servers"]
    log_sources := ["windows_events", "firewall_logs", "proxy_logs"]
    compliance := ["NIST", "ISO27001"]
    industry := "finance"
    environment := "hybrid" }

/-- A sample UTC instant for the timestamp argument. -/
def sampleTime : UtcTime := ⟨2024, 3, 19, 12, 0, 0, 0⟩

/-- Witness for C5: the fully populated test input yields the envelope
(scenario 3), and blanking the region makes validation fail with no
envelope (scenario 4). -/
theorem hunt_results_validation_witness :
    process_hunt_results huntTestData sampleTime =
        .ok { jsonrpc := "2.0", method := "process_hunt_plan",
              params := { toHuntInput := huntTestData,
                          timestamp := "2024-03-19T12:00:00" },
              id := 1 } ∧
      (∃ e, process_hunt_results { huntTestData with region := "" } sampleTime =
        .error e) :=
  ⟨((hunt_results_validation huntTestData sampleTime).2 (by decide)).trans
      (by rw [show isoformat sampleTime = "2024-03-19T12:00:00" from by decide]),
    (hunt_results_validation { huntTestData with region := "" } sampleTime).1.mpr
      (Or.inr (Or.inr (Or.inr (Or.inl rfl))))⟩

theorem pyJoin_length_ge (sep a : String) (l : List String) :
    a.length ≤ (pyJoin sep (a :: l)).length := by
  cases l with
  | nil => simp [pyJoin]
  | cons b rest =>
    simp [pyJoin, String.length_append]
    omega

theorem get_context_cons_ne_empty (r : Rule) (rest : List Rule) :
    get_context_from_rules (r :: rest) ≠ "" := by
  intro h
  have hshape : ∃ tail, contextLines 1 (r :: rest) =
      ("Rule " ++ toString 1 ++ ":") :: tail := ⟨_, rfl⟩
  obtain ⟨tail, htail⟩ := hshape
  change pyJoin "\n" (contextLines 1 (r :: rest)) = "" at h
  rw [htail] at h
  have hlen := pyJoin_length_ge "\n" ("Rule " ++ toString 1 ++ ":") tail
  rw [h] at hlen
  have h7 : ("Rule " ++ toString 1 ++ ":").length = 7 := by decide
  rw [h7] at hlen
  exact absurd hlen (by decide)

/-- Claim C6: the context assembler returns the query unchanged when the
result set is empty, and otherwise wraps the enumerated rule context in
the instructional template with the original query appended. -/
theorem prompt_wraps_context (q : String) (rules : List Rule) :
    (rules = [] → create_llm_prompt q rules = q) ∧
      (rules ≠ [] →
        create_llm_prompt q rules =
          "Here are some relevant Sigma detection rules for context:\n\n" ++
            get_context_from_rules rules ++
            "\n\nBased on these rules, please answer this question:\n" ++ q ++
            "\n\nPlease be specific and refer to the rules when applicable.") := by
  constructor
  · rintro rfl; rfl
  · intro h
    obtain ⟨r, rest, rfl⟩ := List.exists_cons_of_ne_nil h
    simp only [create_llm_prompt]
    rw [if_neg (get_context_cons_ne_empty r rest)]

/-- Witness for C6: the multi-word scenario-2 query passes through
unchanged on an empty result set, and a one-rule set is wrapped in the
template. -/
theorem prompt_wraps_context_witness :
    create_llm_prompt "how do I detect lateral movement" [] =
        "how do I detect lateral movement" ∧
      create_llm_prompt "q" [{ title := some "T" }] =
        "Here are some relevant Sigma detection rules for context:\n\n" ++
          get_context_from_rules [{ title := some "T" }] ++
          "\n\nBased on these rules, please answer this question:\n" ++ "q" ++
          "\n\nPlease be specific and refer to the rules when applicable." :=
  ⟨(prompt_wraps_context "how do I detect lateral movement" []).1 rfl,
    (prompt_wraps_context "q" [{ title := some "T" }]).2 (List.cons_ne_nil _ _)⟩
